import Mathlib

/-
Formal model of the replication engine in src/gitDataSync.js.

The engine keeps a local database file synchronized with a single remote
object held in a versioned store (the GitHub contents / git-data API).
We embed the engine as explicit state-passing functions over an `Engine`
state that bundles:
  - the remote store (current object content and its version sha, a fresh
    sha counter, and the branch head commit),
  - a script of store behaviors used to model transient store failures
    (an exhausted script means the store behaves honestly),
  - a log of every store call issued, with a success flag,
  - the local file (optional content), and the module-level mutable
    variables lastKnownSha and dirty of the source file.

Buffers are modeled as lists of bytes; version shas, commit shas and blob
shas are opaque natural numbers drawn from the fresh counter.  Commit
messages are dropped: they never influence control flow.  The timer and
interval callbacks of the source are modeled separately as a scheduler
transition system at the end of the definitions.
-/

namespace GitDataSync

/-- Byte buffers of the source (Node Buffer values) as lists of bytes. -/
abbrev Content := List Nat

/-- The store calls issued by the engine, mirroring the octokit requests of
src/gitDataSync.js: the contents read (repos.getContent), the raw blob read,
the conditional create-or-update write (repos.createOrUpdateFileContents),
and the six git-data primitives used by commitRawBlob. -/
inductive Call where
  | getContent
  | getBlob (sha : Nat)
  | putContents (content : Content) (sha : Option Nat)
  | createBlob (content : Content)
  | getRef
  | getCommit (commitSha : Nat)
  | createTree (baseTree : Nat) (blobSha : Nat)
  | createCommit (treeSha : Nat) (parentSha : Nat)
  | updateRef (commitSha : Nat) (blobSha : Nat) (content : Content)
  deriving Repr, DecidableEq

/-- A logged store call together with whether it succeeded. -/
structure Event where
  call : Call
  ok : Bool
  deriving Repr, DecidableEq

/-- A store error: its HTTP status when present (octokit errors carry
e.status; errors built locally with new Error have none), whether the
message contains the sha-was-not-supplied marker the source greps for,
and whether it is the configError raised at initialization. -/
structure Err where
  status : Option Nat
  shaMsg : Bool
  cfg : Bool
  deriving Repr, DecidableEq

/-- Scripted behavior of the next store call: honest per store semantics,
or an injected failure with the given status and message class.  An
exhausted script means every later call is honest. -/
inductive Beh where
  | honest
  | fault (status : Option Nat) (shaMsg : Bool)
  deriving Repr, DecidableEq

/-- The whole system state: remote store, fault script, call log, local
file, and the module-level variables lastKnownSha and dirty. -/
structure Engine where
  obj : Option (Content × Nat)
  fresh : Nat
  head : Nat
  script : List Beh
  log : List Event
  localFile : Option Content
  lastKnownSha : Option Nat
  dirty : Bool
  deriving Repr, DecidableEq

/-- The 90 MB size threshold SIZE_WARN_LIMIT of the source. -/
def SIZE_WARN_LIMIT : Nat := 90 * 1024 * 1024

/-- True for the conditional create-or-update write attempts. -/
def isPutAttempt (ev : Event) : Bool :=
  match ev.call with
  | .putContents _ _ => true
  | _ => false

/-- True for every store call that writes (contents write or any git-data
creation / ref update); reads return false. -/
def isWriteEv (ev : Event) : Bool :=
  match ev.call with
  | .putContents _ _ => true
  | .createBlob _ => true
  | .createTree _ _ => true
  | .createCommit _ _ => true
  | .updateRef _ _ _ => true
  | _ => false

/-- True for a successful store call that replaced (or created) the remote
object at the synced path: a successful conditional write, or the ref
update that lands a blob commit. -/
def replacesObj (ev : Event) : Bool :=
  ev.ok && (match ev.call with
  | .putContents _ _ => true
  | .updateRef _ _ _ => true
  | _ => false)

/-- True for the git-data primitive calls of the blob plus commit path. -/
def isBlobPathCall : Call → Bool
  | .createBlob _ => true
  | .getRef => true
  | .getCommit _ => true
  | .createTree _ _ => true
  | .createCommit _ _ => true
  | .updateRef _ _ _ => true
  | _ => false

/-- Pop the scripted behavior for the next store call (honest when the
script is exhausted). -/
def takeBeh (env : Engine) : Beh × Engine :=
  match env.script with
  | [] => (.honest, env)
  | b :: rest => (b, { env with script := rest })

/-- Record a store call and its outcome in the log (newest first). -/
def logEv (c : Call) (ok : Bool) (env : Engine) : Engine :=
  { env with log := ⟨c, ok⟩ :: env.log }

/-- Standard not-found error of the store. -/
def err404 : Err := ⟨some 404, false, false⟩

/-- The 422 failure whose message contains the sha-was-not-supplied marker. -/
def err422sha : Err := ⟨some 422, true, false⟩

/-- Conflict failure for a stale supplied sha. -/
def err409 : Err := ⟨some 409, false, false⟩

/-- Generic 422 failure without the sha marker. -/
def err422 : Err := ⟨some 422, false, false⟩

/-- The configError thrown by initDataSync on a 404 from the seed push. -/
def configErr : Err := ⟨none, false, true⟩

/-- The repos.getContent request: honestly returns the current sha of the
remote object, or a 404 when it is absent. -/
def apiGetContent (env0 : Engine) : Except Err Nat × Engine :=
  match takeBeh env0 with
  | (.fault st m, env) => (.error ⟨st, m, false⟩, logEv .getContent false env)
  | (.honest, env) =>
    match env.obj with
    | some (_, s) => (.ok s, logEv .getContent true env)
    | none => (.error err404, logEv .getContent false env)

/-- The raw blob request: honestly returns the content of the object when
the requested sha matches its current sha. -/
def apiGetBlob (sha : Nat) (env0 : Engine) : Except Err Content × Engine :=
  match takeBeh env0 with
  | (.fault st m, env) => (.error ⟨st, m, false⟩, logEv (.getBlob sha) false env)
  | (.honest, env) =>
    match env.obj with
    | some (c, s) =>
      if s = sha then (.ok c, logEv (.getBlob sha) true env)
      else (.error err404, logEv (.getBlob sha) false env)
    | none => (.error err404, logEv (.getBlob sha) false env)

/-- The repos.createOrUpdateFileContents request.  Honest semantics: with a
matching sha it replaces the object and returns the new blob sha; with no
sha on an existing object it fails 422 with the sha-was-not-supplied
message; with a stale sha it fails 409; with no object and no sha it
creates the object. -/
def apiPutContents (content : Content) (sha : Option Nat) (env0 : Engine) :
    Except Err Nat × Engine :=
  match takeBeh env0 with
  | (.fault st m, env) =>
    (.error ⟨st, m, false⟩, logEv (.putContents content sha) false env)
  | (.honest, env) =>
    match env.obj, sha with
    | some (_, s), some given =>
      if given = s then
        (.ok env.fresh,
          logEv (.putContents content sha) true
            { env with obj := some (content, env.fresh), fresh := env.fresh + 1 })
      else (.error err409, logEv (.putContents content sha) false env)
    | some _, none => (.error err422sha, logEv (.putContents content sha) false env)
    | none, none =>
      (.ok env.fresh,
        logEv (.putContents content sha) true
          { env with obj := some (content, env.fresh), fresh := env.fresh + 1 })
    | none, some _ => (.error err422, logEv (.putContents content sha) false env)

/-- The git.createBlob request: honestly mints a fresh blob sha. -/
def apiCreateBlob (content : Content) (env0 : Engine) : Except Err Nat × Engine :=
  match takeBeh env0 with
  | (.fault st m, env) =>
    (.error ⟨st, m, false⟩, logEv (.createBlob content) false env)
  | (.honest, env) =>
    (.ok env.fresh, logEv (.createBlob content) true { env with fresh := env.fresh + 1 })

/-- The git.getRef request for the branch head commit. -/
def apiGetRef (env0 : Engine) : Except Err Nat × Engine :=
  match takeBeh env0 with
  | (.fault st m, env) => (.error ⟨st, m, false⟩, logEv .getRef false env)
  | (.honest, env) => (.ok env.head, logEv .getRef true env)

/-- The git.getCommit request; its tree reference is modeled by the commit
id itself, which is opaque to the engine. -/
def apiGetCommit (commitSha : Nat) (env0 : Engine) : Except Err Nat × Engine :=
  match takeBeh env0 with
  | (.fault st m, env) => (.error ⟨st, m, false⟩, logEv (.getCommit commitSha) false env)
  | (.honest, env) => (.ok commitSha, logEv (.getCommit commitSha) true env)

/-- The git.createTree request: honestly mints a fresh tree sha. -/
def apiCreateTree (baseTree blobSha : Nat) (env0 : Engine) : Except Err Nat × Engine :=
  match takeBeh env0 with
  | (.fault st m, env) =>
    (.error ⟨st, m, false⟩, logEv (.createTree baseTree blobSha) false env)
  | (.honest, env) =>
    (.ok env.fresh,
      logEv (.createTree baseTree blobSha) true { env with fresh := env.fresh + 1 })

/-- The git.createCommit request: honestly mints a fresh commit sha. -/
def apiCreateCommit (treeSha parentSha : Nat) (env0 : Engine) : Except Err Nat × Engine :=
  match takeBeh env0 with
  | (.fault st m, env) =>
    (.error ⟨st, m, false⟩, logEv (.createCommit treeSha parentSha) false env)
  | (.honest, env) =>
    (.ok env.fresh,
      logEv (.createCommit treeSha parentSha) true { env with fresh := env.fresh + 1 })

/-- The git.updateRef request: honestly advances the branch head and makes
the committed blob the current remote object (the model threads the new
content and blob sha explicitly; the real store derives them from the
commit). -/
def apiUpdateRef (commitSha blobSha : Nat) (content : Content) (env0 : Engine) :
    Except Err Unit × Engine :=
  match takeBeh env0 with
  | (.fault st m, env) =>
    (.error ⟨st, m, false⟩, logEv (.updateRef commitSha blobSha content) false env)
  | (.honest, env) =>
    (.ok (),
      logEv (.updateRef commitSha blobSha content) true
        { env with obj := some (content, blobSha), head := commitSha })

/-- getRemoteSha of the source (lines 33-47): fetch the current sha of the
remote object, mapping a 404 from the store to null; every other failure
propagates. -/
def getRemoteSha (env : Engine) : Except Err (Option Nat) × Engine :=
  match apiGetContent env with
  | (.ok s, e) => (.ok (some s), e)
  | (.error err, e) =>
    if err.status = some 404 then (.ok none, e) else (.error err, e)

/-- fetchRemoteDbBuffer of the source (lines 49-63): resolve the sha, then
fetch the blob content; returns null when the object is absent.  The three
body-decoding branches of the source collapse since the model returns the
buffer directly. -/
def fetchRemoteDbBuffer (env : Engine) : Except Err (Option (Content × Nat)) × Engine :=
  match getRemoteSha env with
  | (.error err, e) => (.error err, e)
  | (.ok none, e) => (.ok none, e)
  | (.ok (some sha), e) =>
    match apiGetBlob sha e with
    | (.error err, e2) => (.error err, e2)
    | (.ok buf, e2) => (.ok (some (buf, sha)), e2)

/-- putFileContents of the source (lines 65-90): one conditional write; if
it fails 422 with the sha-was-not-supplied message, re-fetch the sha and,
when one exists, reissue the write once with it; otherwise rethrow.  A
failure of the reissued write propagates directly. -/
def putFileContents (content : Content) (sha : Option Nat) (env : Engine) :
    Except Err Nat × Engine :=
  match apiPutContents content sha env with
  | (.ok v, e) => (.ok v, e)
  | (.error err, e) =>
    if err.status = some 422 ∧ err.shaMsg = true then
      match getRemoteSha e with
      | (.error err2, e2) => (.error err2, e2)
      | (.ok (some remoteSha), e2) => apiPutContents content (some remoteSha) e2
      | (.ok none, e2) => (.error err, e2)
    else (.error err, e)

/-- commitRawBlob of the source (lines 92-138): create a blob, read the
branch head commit and its tree, create a tree containing the replaced
path, create a commit on top of the head, and advance the branch ref.
Any step failing aborts the rest. -/
def commitRawBlob (buffer : Content) (env : Engine) : Except Err (Nat × Nat) × Engine :=
  match apiCreateBlob buffer env with
  | (.error err, e) => (.error err, e)
  | (.ok blobSha, e) =>
    match apiGetRef e with
    | (.error err, e2) => (.error err, e2)
    | (.ok baseCommitSha, e2) =>
      match apiGetCommit baseCommitSha e2 with
      | (.error err, e3) => (.error err, e3)
      | (.ok baseTree, e3) =>
        match apiCreateTree baseTree blobSha e3 with
        | (.error err, e4) => (.error err, e4)
        | (.ok treeSha, e4) =>
          match apiCreateCommit treeSha baseCommitSha e4 with
          | (.error err, e5) => (.error err, e5)
          | (.ok newCommitSha, e5) =>
            match apiUpdateRef newCommitSha blobSha buffer e5 with
            | (.error err, e6) => (.error err, e6)
            | (.ok _, e6) => (.ok (newCommitSha, blobSha), e6)

/-- The catch of the seed push in initDataSync (lines 185-191): a 404 is
reported as the configuration error; everything else rethrows. -/
def initSeedErr (err : Err) (e : Engine) : Except Err Unit × Engine :=
  if err.status = some 404 then (.error configErr, e) else (.error err, e)

/-- The seed push of initDataSync (lines 169-191): create the remote object
from the non-empty local file, through the contents write at or below
SIZE_WARN_LIMIT and through commitRawBlob above it. -/
def initSeed (buf : Content) (e : Engine) : Except Err Unit × Engine :=
  if buf.length ≤ SIZE_WARN_LIMIT then
    match putFileContents buf none e with
    | (.ok newSha, e2) => (.ok (), { e2 with lastKnownSha := some newSha })
    | (.error err, e2) => initSeedErr err e2
  else
    match commitRawBlob buf e with
    | (.ok _, e2) =>
      match getRemoteSha e2 with
      | (.ok s, e3) => (.ok (), { e3 with lastKnownSha := s })
      | (.error err, e3) => initSeedErr err e3
    | (.error err, e2) => initSeedErr err e2

/-- The remote-missing branch of initDataSync (lines 166-202): seed the
remote from a non-empty local file; otherwise create an empty local file
when none exists and never contact the remote write path. -/
def initSeedOrSkip (e : Engine) : Except Err Unit × Engine :=
  match e.localFile with
  | some buf =>
    if 0 < buf.length then initSeed buf e
    else (.ok (), e)
  | none => (.ok (), { e with localFile := some [] })

/-- The remote read at the top of initDataSync (lines 152-159): fetch the
remote object, re-raising only failures that carry a status other than
404; a missing status or a 404 leaves remote = null. -/
def initFetchRemote (env : Engine) : Except Err (Option (Content × Nat)) × Engine :=
  match fetchRemoteDbBuffer env with
  | (.ok r, e) => (.ok r, e)
  | (.error err, e) =>
    match err.status with
    | some st => if st = 404 then (.ok none, e) else (.error err, e)
    | none => (.ok none, e)

/-- initDataSync of the source (lines 148-218), without the interval and
signal-handler registration, which the scheduler model below covers: pull
the remote into the local file when it exists; otherwise seed or skip. -/
def initDataSync (env : Engine) : Except Err Unit × Engine :=
  match initFetchRemote env with
  | (.error err, e) => (.error err, e)
  | (.ok (some (buf, sha)), e) =>
    (.ok (), { e with localFile := some buf, lastKnownSha := some sha })
  | (.ok none, e) => initSeedOrSkip e

/-- The dirty flag assignment of markDataDirty (line 221); the timer logic
lives in the scheduler model. -/
def markDataDirty (env : Engine) : Engine := { env with dirty := true }

/-- The blob-commit fallback of the update path of syncNow (lines 273-283):
commit the buffer through the git-data primitives, then re-read the sha,
record it and clear dirty. -/
def syncFallbackUpdate (buf : Content) (e : Engine) : Except Err Unit × Engine :=
  match commitRawBlob buf e with
  | (.ok _, e2) =>
    match getRemoteSha e2 with
    | (.ok s, e3) => (.ok (), { e3 with lastKnownSha := s, dirty := false })
    | (.error err, e3) => (.error err, e3)
  | (.error err, e2) => (.error err, e2)

/-- The remote-exists branch of syncNow (lines 249-283): conditional write
with the fetched sha; on a 422 with the sha message, re-fetch once and
retry, a failure of the retry propagating; on any other failure fall back
to the blob commit. -/
def syncUpdateExisting (buf : Content) (remoteSha : Nat) (e : Engine) :
    Except Err Unit × Engine :=
  match putFileContents buf (some remoteSha) e with
  | (.ok newSha, e2) => (.ok (), { e2 with lastKnownSha := some newSha, dirty := false })
  | (.error err, e2) =>
    if err.status = some 422 ∧ err.shaMsg = true then
      match getRemoteSha e2 with
      | (.error err2, e3) => (.error err2, e3)
      | (.ok (some refreshedSha), e3) =>
        match putFileContents buf (some refreshedSha) e3 with
        | (.ok newSha, e4) =>
          (.ok (), { e4 with lastKnownSha := some newSha, dirty := false })
        | (.error err2, e4) => (.error err2, e4)
      | (.ok none, e3) => syncFallbackUpdate buf e3
    else syncFallbackUpdate buf e2

/-- The remote-missing branch of syncNow (lines 284-314): refuse to push a
blank buffer (clearing dirty as a successful no-op); otherwise create the
remote through the contents write, falling back to the blob commit. -/
def syncCreateMissing (buf : Content) (e : Engine) : Except Err Unit × Engine :=
  if buf.length = 0 then (.ok (), { e with dirty := false })
  else
    match putFileContents buf none e with
    | (.ok newSha, e2) => (.ok (), { e2 with lastKnownSha := some newSha, dirty := false })
    | (.error _, e2) =>
      match commitRawBlob buf e2 with
      | (.ok _, e3) =>
        match getRemoteSha e3 with
        | (.ok s, e4) => (.ok (), { e4 with lastKnownSha := s, dirty := false })
        | (.error err2, e4) => (.error err2, e4)
      | (.error err2, e3) => (.error err2, e3)

/-- syncNow of the source (lines 234-315): skip when not dirty and not
forced, or when the local file is missing; else read the buffer, fetch the
remote sha, and update or create accordingly. -/
def syncNow (force : Bool) (env : Engine) : Except Err Unit × Engine :=
  if !env.dirty && !force then (.ok (), env)
  else
    match env.localFile with
    | none => (.ok (), env)
    | some buf =>
      match getRemoteSha env with
      | (.error err, e) => (.error err, e)
      | (.ok (some remoteSha), e) => syncUpdateExisting buf remoteSha e
      | (.ok none, e) => syncCreateMissing buf e

/-- Scheduler state of the source: the dirty flag, whether a debounce
timer handle is pending (timer of line 29), how many syncNow runs are in
flight, and how many have ever been launched. -/
structure Sched where
  dirty : Bool
  timer : Bool
  inFlight : Nat
  launched : Nat
  deriving Repr, DecidableEq

/-- Scheduler events: markDataDirty, the debounce timeout firing (lines
223-226), the periodic one-minute tick (lines 205-207), and a launched
syncNow completing. -/
inductive SEv where
  | mark
  | fire
  | tick
  | flush (force : Bool)
  | shutdown
  | finish
  deriving Repr, DecidableEq

/-- One scheduler transition.  mark sets dirty and arms the timer only if
no handle is pending.  fire models the timeout callback: it launches
syncNow (which proceeds only when dirty) and clears the handle at once,
not when the launched run completes.  tick launches syncNow when dirty.
flush models a direct caller invocation of the exported syncNow(force),
which proceeds when dirty or forced.  shutdown models the SIGINT and
SIGTERM handler (lines 210-217), which runs syncNow(true) when dirty.
finish completes one in-flight run, modeling a successful push clearing
dirty.  The source has no gate tying launches to inFlight. -/
def schedStep (s : Sched) : SEv → Sched
  | .mark =>
    if s.timer then { s with dirty := true }
    else { s with dirty := true, timer := true }
  | .fire =>
    if s.timer then
      if s.dirty then
        { s with timer := false, inFlight := s.inFlight + 1, launched := s.launched + 1 }
      else { s with timer := false }
    else s
  | .tick =>
    if s.dirty then { s with inFlight := s.inFlight + 1, launched := s.launched + 1 }
    else s
  | .flush force =>
    if s.dirty || force then
      { s with inFlight := s.inFlight + 1, launched := s.launched + 1 }
    else s
  | .shutdown =>
    if s.dirty then { s with inFlight := s.inFlight + 1, launched := s.launched + 1 }
    else s
  | .finish =>
    if s.inFlight = 0 then s
    else { s with inFlight := s.inFlight - 1, dirty := false }

/-- Run the scheduler over a list of events. -/
def runSched (s : Sched) (evs : List SEv) : Sched := evs.foldl schedStep s

/-- Scheduler state at module load: not dirty, no timer, nothing running. -/
def schedInit : Sched := ⟨false, false, 0, 0⟩

/-!  State lemmas for the store layer: every call appends exactly one log
event, never touches the engine-private fields (local file, lastKnownSha,
dirty), and changes the remote object only on a successful write. -/

theorem apiGetContent_state (env : Engine) :
    (apiGetContent env).2.obj = env.obj ∧
    (apiGetContent env).2.localFile = env.localFile ∧
    (apiGetContent env).2.lastKnownSha = env.lastKnownSha ∧
    (apiGetContent env).2.dirty = env.dirty ∧
    (∃ b, (apiGetContent env).2.log = Event.mk Call.getContent b :: env.log) ∧
    (∀ v, (apiGetContent env).1 = Except.ok v → ∃ c, env.obj = some (c, v)) := by
  rcases env with ⟨obj, fr, hd, script, log, lf, lks, d⟩
  cases script with
  | nil => rcases obj with _ | ⟨c, s⟩ <;> simp [apiGetContent, takeBeh, logEv]
  | cons b rest =>
    cases b <;> rcases obj with _ | ⟨c, s⟩ <;> simp [apiGetContent, takeBeh, logEv]

theorem apiGetBlob_state (sha : Nat) (env : Engine) :
    (apiGetBlob sha env).2.obj = env.obj ∧
    (apiGetBlob sha env).2.localFile = env.localFile ∧
    (apiGetBlob sha env).2.lastKnownSha = env.lastKnownSha ∧
    (apiGetBlob sha env).2.dirty = env.dirty ∧
    (∃ b, (apiGetBlob sha env).2.log = Event.mk (Call.getBlob sha) b :: env.log) := by
  rcases env with ⟨obj, fr, hd, script, log, lf, lks, d⟩
  cases script with
  | nil =>
    rcases obj with _ | ⟨c, s⟩ <;> (simp [apiGetBlob, takeBeh, logEv]; try (split <;> simp))
  | cons b rest =>
    cases b <;> rcases obj with _ | ⟨c, s⟩ <;> (simp [apiGetBlob, takeBeh, logEv]; try (split <;> simp))

theorem apiPutContents_state (content : Content) (sha : Option Nat) (env : Engine) :
    (apiPutContents content sha env).2.localFile = env.localFile ∧
    (apiPutContents content sha env).2.lastKnownSha = env.lastKnownSha ∧
    (apiPutContents content sha env).2.dirty = env.dirty ∧
    (∀ v, (apiPutContents content sha env).1 = Except.ok v →
      (apiPutContents content sha env).2.obj = some (content, v) ∧
      (apiPutContents content sha env).2.log =
        Event.mk (Call.putContents content sha) true :: env.log) ∧
    (∀ err, (apiPutContents content sha env).1 = Except.error err →
      (apiPutContents content sha env).2.obj = env.obj ∧
      (apiPutContents content sha env).2.log =
        Event.mk (Call.putContents content sha) false :: env.log) := by
  rcases env with ⟨obj, fr, hd, script, log, lf, lks, d⟩
  cases script with
  | nil =>
    rcases obj with _ | ⟨c, s⟩ <;> rcases sha with _ | given <;>
      (simp [apiPutContents, takeBeh, logEv]; try (split <;> simp_all))
  | cons b rest =>
    cases b <;> rcases obj with _ | ⟨c, s⟩ <;> rcases sha with _ | given <;>
      (simp [apiPutContents, takeBeh, logEv]; try (split <;> simp_all))

theorem apiCreateBlob_state (content : Content) (env : Engine) :
    (apiCreateBlob content env).2.obj = env.obj ∧
    (apiCreateBlob content env).2.localFile = env.localFile ∧
    (apiCreateBlob content env).2.lastKnownSha = env.lastKnownSha ∧
    (apiCreateBlob content env).2.dirty = env.dirty ∧
    (∃ b, (apiCreateBlob content env).2.log =
      Event.mk (Call.createBlob content) b :: env.log) := by
  rcases env with ⟨obj, fr, hd, script, log, lf, lks, d⟩
  cases script with
  | nil => simp [apiCreateBlob, takeBeh, logEv]
  | cons b rest => cases b <;> simp [apiCreateBlob, takeBeh, logEv]

theorem apiGetRef_state (env : Engine) :
    (apiGetRef env).2.obj = env.obj ∧
    (apiGetRef env).2.localFile = env.localFile ∧
    (apiGetRef env).2.lastKnownSha = env.lastKnownSha ∧
    (apiGetRef env).2.dirty = env.dirty ∧
    (∃ b, (apiGetRef env).2.log = Event.mk Call.getRef b :: env.log) := by
  rcases env with ⟨obj, fr, hd, script, log, lf, lks, d⟩
  cases script with
  | nil => simp [apiGetRef, takeBeh, logEv]
  | cons b rest => cases b <;> simp [apiGetRef, takeBeh, logEv]

theorem apiGetCommit_state (commitSha : Nat) (env : Engine) :
    (apiGetCommit commitSha env).2.obj = env.obj ∧
    (apiGetCommit commitSha env).2.localFile = env.localFile ∧
    (apiGetCommit commitSha env).2.lastKnownSha = env.lastKnownSha ∧
    (apiGetCommit commitSha env).2.dirty = env.dirty ∧
    (∃ b, (apiGetCommit commitSha env).2.log =
      Event.mk (Call.getCommit commitSha) b :: env.log) := by
  rcases env with ⟨obj, fr, hd, script, log, lf, lks, d⟩
  cases script with
  | nil => simp [apiGetCommit, takeBeh, logEv]
  | cons b rest => cases b <;> simp [apiGetCommit, takeBeh, logEv]

theorem apiCreateTree_state (baseTree blobSha : Nat) (env : Engine) :
    (apiCreateTree baseTree blobSha env).2.obj = env.obj ∧
    (apiCreateTree baseTree blobSha env).2.localFile = env.localFile ∧
    (apiCreateTree baseTree blobSha env).2.lastKnownSha = env.lastKnownSha ∧
    (apiCreateTree baseTree blobSha env).2.dirty = env.dirty ∧
    (∃ b, (apiCreateTree baseTree blobSha env).2.log =
      Event.mk (Call.createTree baseTree blobSha) b :: env.log) := by
  rcases env with ⟨obj, fr, hd, script, log, lf, lks, d⟩
  cases script with
  | nil => simp [apiCreateTree, takeBeh, logEv]
  | cons b rest => cases b <;> simp [apiCreateTree, takeBeh, logEv]

theorem apiCreateCommit_state (treeSha parentSha : Nat) (env : Engine) :
    (apiCreateCommit treeSha parentSha env).2.obj = env.obj ∧
    (apiCreateCommit treeSha parentSha env).2.localFile = env.localFile ∧
    (apiCreateCommit treeSha parentSha env).2.lastKnownSha = env.lastKnownSha ∧
    (apiCreateCommit treeSha parentSha env).2.dirty = env.dirty ∧
    (∃ b, (apiCreateCommit treeSha parentSha env).2.log =
      Event.mk (Call.createCommit treeSha parentSha) b :: env.log) := by
  rcases env with ⟨obj, fr, hd, script, log, lf, lks, d⟩
  cases script with
  | nil => simp [apiCreateCommit, takeBeh, logEv]
  | cons b rest => cases b <;> simp [apiCreateCommit, takeBeh, logEv]

theorem apiUpdateRef_state (commitSha blobSha : Nat) (content : Content) (env : Engine) :
    (apiUpdateRef commitSha blobSha content env).2.localFile = env.localFile ∧
    (apiUpdateRef commitSha blobSha content env).2.lastKnownSha = env.lastKnownSha ∧
    (apiUpdateRef commitSha blobSha content env).2.dirty = env.dirty ∧
    (∀ v, (apiUpdateRef commitSha blobSha content env).1 = Except.ok v →
      (apiUpdateRef commitSha blobSha content env).2.obj = some (content, blobSha) ∧
      (apiUpdateRef commitSha blobSha content env).2.log =
        Event.mk (Call.updateRef commitSha blobSha content) true :: env.log) ∧
    (∀ err, (apiUpdateRef commitSha blobSha content env).1 = Except.error err →
      (apiUpdateRef commitSha blobSha content env).2.obj = env.obj ∧
      (apiUpdateRef commitSha blobSha content env).2.log =
        Event.mk (Call.updateRef commitSha blobSha content) false :: env.log) := by
  rcases env with ⟨obj, fr, hd, script, log, lf, lks, d⟩
  cases script with
  | nil => simp [apiUpdateRef, takeBeh, logEv]
  | cons b rest => cases b <;> simp [apiUpdateRef, takeBeh, logEv]

theorem getRemoteSha_state (env : Engine) :
    (getRemoteSha env).2.obj = env.obj ∧
    (getRemoteSha env).2.localFile = env.localFile ∧
    (getRemoteSha env).2.lastKnownSha = env.lastKnownSha ∧
    (getRemoteSha env).2.dirty = env.dirty ∧
    (∃ b, (getRemoteSha env).2.log = Event.mk Call.getContent b :: env.log) ∧
    (∀ s, (getRemoteSha env).1 = Except.ok (some s) → ∃ c, env.obj = some (c, s)) := by
  have h := apiGetContent_state env
  unfold getRemoteSha
  rcases hg : apiGetContent env with ⟨r, e1⟩
  rw [hg] at h
  rcases r with err | v
  · by_cases h4 : err.status = some 404 <;> simp_all
  · simpa using h

theorem putFileContents_state (content : Content) (sha : Option Nat) (env : Engine) :
    (putFileContents content sha env).2.localFile = env.localFile ∧
    (putFileContents content sha env).2.lastKnownSha = env.lastKnownSha ∧
    (putFileContents content sha env).2.dirty = env.dirty ∧
    (∃ l, (putFileContents content sha env).2.log = l ++ env.log ∧
      l.countP (fun ev => isPutAttempt ev) ≤ 2 ∧
      (∀ ev ∈ l, isWriteEv ev = true → isPutAttempt ev = true)) ∧
    (∀ v, (putFileContents content sha env).1 = Except.ok v →
      (putFileContents content sha env).2.obj = some (content, v) ∧
      ∃ ev ∈ (putFileContents content sha env).2.log, replacesObj ev = true) ∧
    (∀ err, (putFileContents content sha env).1 = Except.error err →
      (putFileContents content sha env).2.obj = env.obj) := by
  have h1 := apiPutContents_state content sha env
  unfold putFileContents
  rcases hp : apiPutContents content sha env with ⟨r1, e1⟩
  rw [hp] at h1
  obtain ⟨h1lf, h1lks, h1d, h1ok, h1err⟩ := h1
  rcases r1 with err | v
  · -- first conditional write failed
    obtain ⟨hobj1, hlog1⟩ := h1err err rfl
    dsimp at hobj1 hlog1 h1lf h1lks h1d ⊢
    by_cases hc : err.status = some 422 ∧ err.shaMsg = true
    · rw [if_pos hc]
      have h2 := getRemoteSha_state e1
      rcases hg : getRemoteSha e1 with ⟨r2, e2⟩
      rw [hg] at h2
      obtain ⟨h2obj, h2lf, h2lks, h2d, ⟨b2, h2log⟩, _⟩ := h2
      dsimp at h2obj h2lf h2lks h2d h2log
      rcases r2 with err2 | s2
      · -- the re-fetch of the sha failed
        dsimp
        refine ⟨by rw [h2lf, h1lf], by rw [h2lks, h1lks], by rw [h2d, h1d],
          ⟨[Event.mk Call.getContent b2, Event.mk (Call.putContents content sha) false],
            by simp [h2log, hlog1], by simp [isPutAttempt],
            by simp [isWriteEv, isPutAttempt]⟩, by simp, ?_⟩
        intro err3 _
        rw [h2obj, hobj1]
      · rcases s2 with _ | rs
        · -- no sha found: rethrow the original failure
          dsimp
          refine ⟨by rw [h2lf, h1lf], by rw [h2lks, h1lks], by rw [h2d, h1d],
            ⟨[Event.mk Call.getContent b2, Event.mk (Call.putContents content sha) false],
              by simp [h2log, hlog1], by simp [isPutAttempt],
              by simp [isWriteEv, isPutAttempt]⟩, by simp, ?_⟩
          intro err3 _
          rw [h2obj, hobj1]
        · -- reissue the write once with the fetched sha
          dsimp
          have h3 := apiPutContents_state content (some rs) e2
          obtain ⟨h3lf, h3lks, h3d, h3ok, h3err⟩ := h3
          rcases hp2 : apiPutContents content (some rs) e2 with ⟨r3, e3⟩
          rw [hp2] at h3lf h3lks h3d h3ok h3err
          dsimp at h3lf h3lks h3d h3ok h3err
          rcases r3 with err3 | v3
          · obtain ⟨h3obj, h3log⟩ := h3err err3 rfl
            refine ⟨by rw [h3lf, h2lf, h1lf], by rw [h3lks, h2lks, h1lks],
              by rw [h3d, h2d, h1d],
              ⟨[Event.mk (Call.putContents content (some rs)) false,
                Event.mk Call.getContent b2, Event.mk (Call.putContents content sha) false],
                by simp [h3log, h2log, hlog1], by simp [isPutAttempt],
                by simp [isWriteEv, isPutAttempt]⟩, by simp, ?_⟩
            intro err4 _
            rw [h3obj, h2obj, hobj1]
          · obtain ⟨h3obj, h3log⟩ := h3ok v3 rfl
            refine ⟨by rw [h3lf, h2lf, h1lf], by rw [h3lks, h2lks, h1lks],
              by rw [h3d, h2d, h1d],
              ⟨[Event.mk (Call.putContents content (some rs)) true,
                Event.mk Call.getContent b2, Event.mk (Call.putContents content sha) false],
                by simp [h3log, h2log, hlog1], by simp [isPutAttempt],
                by simp [isWriteEv, isPutAttempt]⟩, ?_, by simp⟩
            intro v4 hv4
            obtain rfl : v3 = v4 := by simpa using hv4
            exact ⟨h3obj, ⟨Event.mk (Call.putContents content (some rs)) true,
              by simp [h3log], by simp [replacesObj]⟩⟩
    · rw [if_neg hc]
      dsimp
      refine ⟨h1lf, h1lks, h1d,
        ⟨[Event.mk (Call.putContents content sha) false], by simp [hlog1],
          by simp [isPutAttempt], by simp [isWriteEv, isPutAttempt]⟩, by simp, ?_⟩
      intro err3 _
      exact hobj1
  · -- first conditional write succeeded
    obtain ⟨hobj, hlog⟩ := h1ok v rfl
    dsimp at hobj hlog h1lf h1lks h1d ⊢
    refine ⟨h1lf, h1lks, h1d,
      ⟨[Event.mk (Call.putContents content sha) true], by simp [hlog], by simp [isPutAttempt],
        by simp [isWriteEv, isPutAttempt]⟩, ?_, by simp⟩
    intro v2 hv2
    obtain rfl : v = v2 := by simpa using hv2
    exact ⟨hobj, ⟨Event.mk (Call.putContents content sha) true, by simp [hlog],
      by simp [replacesObj]⟩⟩

theorem commitRawBlob_state (buffer : Content) (env : Engine) :
    (commitRawBlob buffer env).2.localFile = env.localFile ∧
    (commitRawBlob buffer env).2.lastKnownSha = env.lastKnownSha ∧
    (commitRawBlob buffer env).2.dirty = env.dirty ∧
    (∃ l, (commitRawBlob buffer env).2.log = l ++ env.log ∧
      l.countP (fun ev => isPutAttempt ev) = 0) ∧
    (∀ v, (commitRawBlob buffer env).1 = Except.ok v →
      (∃ s, (commitRawBlob buffer env).2.obj = some (buffer, s)) ∧
      ∃ ev ∈ (commitRawBlob buffer env).2.log, replacesObj ev = true) ∧
    (∀ err, (commitRawBlob buffer env).1 = Except.error err →
      (commitRawBlob buffer env).2.obj = env.obj) := by
  unfold commitRawBlob
  have h1 := apiCreateBlob_state buffer env
  rcases hc1 : apiCreateBlob buffer env with ⟨r1, e1⟩
  rw [hc1] at h1
  obtain ⟨h1obj, h1lf, h1lks, h1d, b1, h1log⟩ := h1
  dsimp at h1obj h1lf h1lks h1d h1log
  rcases r1 with err | blobSha
  · dsimp
    exact ⟨h1lf, h1lks, h1d,
      ⟨[Event.mk (Call.createBlob buffer) b1], by simp [h1log], by simp [isPutAttempt]⟩,
      by simp, fun err2 _ => h1obj⟩
  · have h2 := apiGetRef_state e1
    rcases hc2 : apiGetRef e1 with ⟨r2, e2⟩
    rw [hc2] at h2
    try simp only [hc2]
    obtain ⟨h2obj, h2lf, h2lks, h2d, b2, h2log⟩ := h2
    dsimp at h2obj h2lf h2lks h2d h2log
    rcases r2 with err | baseCommitSha
    · dsimp
      exact ⟨by rw [h2lf, h1lf], by rw [h2lks, h1lks], by rw [h2d, h1d],
        ⟨[Event.mk Call.getRef b2, Event.mk (Call.createBlob buffer) b1],
          by simp [h2log, h1log], by simp [isPutAttempt]⟩,
        by simp, fun err2 _ => by rw [h2obj, h1obj]⟩
    · have h3 := apiGetCommit_state baseCommitSha e2
      rcases hc3 : apiGetCommit baseCommitSha e2 with ⟨r3, e3⟩
      rw [hc3] at h3
      try simp only [hc3]
      obtain ⟨h3obj, h3lf, h3lks, h3d, b3, h3log⟩ := h3
      dsimp at h3obj h3lf h3lks h3d h3log
      rcases r3 with err | baseTree
      · dsimp
        exact ⟨by rw [h3lf, h2lf, h1lf], by rw [h3lks, h2lks, h1lks],
          by rw [h3d, h2d, h1d],
          ⟨[Event.mk (Call.getCommit baseCommitSha) b3, Event.mk Call.getRef b2,
            Event.mk (Call.createBlob buffer) b1],
            by simp [h3log, h2log, h1log], by simp [isPutAttempt]⟩,
          by simp, fun err2 _ => by rw [h3obj, h2obj, h1obj]⟩
      · have h4 := apiCreateTree_state baseTree blobSha e3
        rcases hc4 : apiCreateTree baseTree blobSha e3 with ⟨r4, e4⟩
        rw [hc4] at h4
        try simp only [hc4]
        obtain ⟨h4obj, h4lf, h4lks, h4d, b4, h4log⟩ := h4
        dsimp at h4obj h4lf h4lks h4d h4log
        rcases r4 with err | treeSha
        · dsimp
          exact ⟨by rw [h4lf, h3lf, h2lf, h1lf], by rw [h4lks, h3lks, h2lks, h1lks],
            by rw [h4d, h3d, h2d, h1d],
            ⟨[Event.mk (Call.createTree baseTree blobSha) b4,
              Event.mk (Call.getCommit baseCommitSha) b3, Event.mk Call.getRef b2,
              Event.mk (Call.createBlob buffer) b1],
              by simp [h4log, h3log, h2log, h1log], by simp [isPutAttempt]⟩,
            by simp, fun err2 _ => by rw [h4obj, h3obj, h2obj, h1obj]⟩
        · have h5 := apiCreateCommit_state treeSha baseCommitSha e4
          rcases hc5 : apiCreateCommit treeSha baseCommitSha e4 with ⟨r5, e5⟩
          rw [hc5] at h5
          try simp only [hc5]
          obtain ⟨h5obj, h5lf, h5lks, h5d, b5, h5log⟩ := h5
          dsimp at h5obj h5lf h5lks h5d h5log
          rcases r5 with err | newCommitSha
          · dsimp
            exact ⟨by rw [h5lf, h4lf, h3lf, h2lf, h1lf],
              by rw [h5lks, h4lks, h3lks, h2lks, h1lks],
              by rw [h5d, h4d, h3d, h2d, h1d],
              ⟨[Event.mk (Call.createCommit treeSha baseCommitSha) b5,
                Event.mk (Call.createTree baseTree blobSha) b4,
                Event.mk (Call.getCommit baseCommitSha) b3, Event.mk Call.getRef b2,
                Event.mk (Call.createBlob buffer) b1],
                by simp [h5log, h4log, h3log, h2log, h1log], by simp [isPutAttempt]⟩,
              by simp, fun err2 _ => by rw [h5obj, h4obj, h3obj, h2obj, h1obj]⟩
          · have h6 := apiUpdateRef_state newCommitSha blobSha buffer e5
            rcases hc6 : apiUpdateRef newCommitSha blobSha buffer e5 with ⟨r6, e6⟩
            rw [hc6] at h6
            try simp only [hc6]
            obtain ⟨h6lf, h6lks, h6d, h6ok, h6err⟩ := h6
            dsimp at h6lf h6lks h6d h6ok h6err
            rcases r6 with err | u
            · obtain ⟨h6obj, h6log⟩ := h6err err rfl
              dsimp
              exact ⟨by rw [h6lf, h5lf, h4lf, h3lf, h2lf, h1lf],
                by rw [h6lks, h5lks, h4lks, h3lks, h2lks, h1lks],
                by rw [h6d, h5d, h4d, h3d, h2d, h1d],
                ⟨[Event.mk (Call.updateRef newCommitSha blobSha buffer) false,
                  Event.mk (Call.createCommit treeSha baseCommitSha) b5,
                  Event.mk (Call.createTree baseTree blobSha) b4,
                  Event.mk (Call.getCommit baseCommitSha) b3, Event.mk Call.getRef b2,
                  Event.mk (Call.createBlob buffer) b1],
                  by simp [h6log, h5log, h4log, h3log, h2log, h1log],
                  by simp [isPutAttempt]⟩,
                by simp, fun err2 _ => by rw [h6obj, h5obj, h4obj, h3obj, h2obj, h1obj]⟩
            · obtain ⟨h6obj, h6log⟩ := h6ok u rfl
              dsimp
              refine ⟨by rw [h6lf, h5lf, h4lf, h3lf, h2lf, h1lf],
                by rw [h6lks, h5lks, h4lks, h3lks, h2lks, h1lks],
                by rw [h6d, h5d, h4d, h3d, h2d, h1d],
                ⟨[Event.mk (Call.updateRef newCommitSha blobSha buffer) true,
                  Event.mk (Call.createCommit treeSha baseCommitSha) b5,
                  Event.mk (Call.createTree baseTree blobSha) b4,
                  Event.mk (Call.getCommit baseCommitSha) b3, Event.mk Call.getRef b2,
                  Event.mk (Call.createBlob buffer) b1],
                  by simp [h6log, h5log, h4log, h3log, h2log, h1log],
                  by simp [isPutAttempt]⟩, ?_, by simp⟩
              intro v _
              exact ⟨⟨blobSha, h6obj⟩,
                ⟨Event.mk (Call.updateRef newCommitSha blobSha buffer) true,
                  by simp [h6log], by simp [replacesObj]⟩⟩

/-!  Claim theorems. -/

/-- C1: remote-wins on init.  For every state in which the remote object
exists (and the store answers honestly), initDataSync succeeds, the local
file content equals the fetched remote content, lastKnownSha is set to the
fetched version tag, the remote object is untouched, and no write call to
the remote store occurs during initialization. -/
theorem c1_remote_wins_on_init (c : Content) (s : Nat) (env : Engine)
    (hobj : env.obj = some (c, s)) (hscript : env.script = [])
    (hlog : env.log = []) :
    (initDataSync env).1 = Except.ok () ∧
    (initDataSync env).2.localFile = some c ∧
    (initDataSync env).2.lastKnownSha = some s ∧
    (initDataSync env).2.obj = some (c, s) ∧
    (initDataSync env).2.log.filter (fun ev => isWriteEv ev) = [] := by
  rcases env with ⟨obj, fr, hd, script, log, lf, lks, d⟩
  simp only at hobj hscript hlog
  subst hobj hscript hlog
  simp [initDataSync, initFetchRemote, fetchRemoteDbBuffer, getRemoteSha,
    apiGetContent, apiGetBlob, takeBeh, logEv, isWriteEv]

/-- State for the c1 witness: remote holds bytes 7 8 under sha 3. -/
def envC1 : Engine := ⟨some ([7, 8], 3), 10, 0, [], [], some [1], none, false⟩

/-- Witness for c1 at the concrete state envC1. -/
theorem c1_remote_wins_on_init_witness :
    (initDataSync envC1).1 = Except.ok () ∧
    (initDataSync envC1).2.localFile = some [7, 8] ∧
    (initDataSync envC1).2.lastKnownSha = some 3 ∧
    (initDataSync envC1).2.obj = some ([7, 8], 3) ∧
    (initDataSync envC1).2.log.filter (fun ev => isWriteEv ev) = [] :=
  c1_remote_wins_on_init [7, 8] 3 envC1 rfl rfl rfl

/-- State refuting claim C2: the remote object exists with non-empty
content under sha 5, the local file exists but is empty, and a change has
been signaled (dirty). -/
def envC2 : Engine := ⟨some ([1], 5), 6, 0, [], [], some [], some 5, true⟩

/-- C2 counterexample: from envC2 the debounced flush path (syncNow
without force) succeeds and replaces the existing non-empty remote object
with zero-length content through a push, contradicting the claim that the
engine never performs such a push. -/
theorem c2_i1_counterexample :
    envC2.obj = some ([1], 5) ∧
    (syncNow false envC2).1 = Except.ok () ∧
    (syncNow false envC2).2.obj = some ([], 6) ∧
    (syncNow false envC2).2.log.filter (fun ev => replacesObj ev) =
      [Event.mk (Call.putContents [] (some 5)) true] :=
  ⟨rfl, rfl, rfl, rfl⟩

/-- C2 amended: the engine never creates the remote object with
zero-length content.  Whenever a push runs while the remote object is
absent, afterwards the remote is either still absent or holds the
non-empty local buffer; replacing an existing remote object with empty
content remains possible, but only as an explicit dirty or forced update
of an object that already exists. -/
theorem c2_no_empty_create (env : Engine) (f : Bool) (hobj : env.obj = none) :
    (syncNow f env).2.obj = none ∨
    ∃ buf s, env.localFile = some buf ∧ buf ≠ [] ∧
      (syncNow f env).2.obj = some (buf, s) := by
  unfold syncNow
  by_cases hdf : (!env.dirty && !f) = true
  · rw [if_pos hdf]
    exact Or.inl hobj
  · rw [if_neg hdf]
    rcases hl : env.localFile with _ | buf
    · simp only
      exact Or.inl hobj
    · simp only
      have hg := getRemoteSha_state env
      rcases hgr : getRemoteSha env with ⟨rg, eg⟩
      rw [hgr] at hg
      try simp only [hgr]
      obtain ⟨hgobj, hglf, hglks, hgd, ⟨bg, hglog⟩, hgok⟩ := hg
      dsimp at hgobj hglf hglks hgd hglog hgok
      rcases rg with err | s2
      · dsimp only
        exact Or.inl (hgobj.trans hobj)
      · rcases s2 with _ | rsha
        · -- remote observed absent: create branch
          dsimp only
          unfold syncCreateMissing
          by_cases hlen : buf.length = 0
          · rw [if_pos hlen]
            dsimp only
            exact Or.inl (hgobj.trans hobj)
          · rw [if_neg hlen]
            have hne : buf ≠ [] := by
              intro hnil
              exact hlen (by simp [hnil])
            have hp := putFileContents_state buf none eg
            rcases hpc : putFileContents buf none eg with ⟨rp, ep⟩
            rw [hpc] at hp
            try simp only [hpc]
            obtain ⟨hplf, hplks, hpd, hplog, hpok, hperr⟩ := hp
            dsimp at hplf hplks hpd hpok hperr
            rcases rp with err | v
            · -- contents create failed: blob commit fallback
              dsimp only
              have hpobj : ep.obj = none := (hperr err rfl).trans (hgobj.trans hobj)
              have hcb := commitRawBlob_state buf ep
              rcases hcc : commitRawBlob buf ep with ⟨rc, ec⟩
              rw [hcc] at hcb
              try simp only [hcc]
              obtain ⟨hclf, hclks, hcd, hclog, hcok, hcerr⟩ := hcb
              dsimp at hclf hclks hcd hcok hcerr
              rcases rc with err2 | vv
              · dsimp only
                exact Or.inl ((hcerr err2 rfl).trans hpobj)
              · dsimp only
                obtain ⟨⟨sblob, hcobj⟩, _⟩ := hcok vv rfl
                have hg2 := getRemoteSha_state ec
                rcases hgr2 : getRemoteSha ec with ⟨rg2, eg2⟩
                rw [hgr2] at hg2
                try simp only [hgr2]
                obtain ⟨hg2obj, _, _, _, _, _⟩ := hg2
                dsimp at hg2obj
                rcases rg2 with err3 | s3
                · dsimp only
                  exact Or.inr ⟨buf, sblob, rfl, hne, hg2obj.trans hcobj⟩
                · dsimp only
                  exact Or.inr ⟨buf, sblob, rfl, hne, hg2obj.trans hcobj⟩
            · dsimp only
              obtain ⟨hpobj, _⟩ := hpok v rfl
              exact Or.inr ⟨buf, v, rfl, hne, hpobj⟩
        · -- the store cannot report a sha for an absent object
          obtain ⟨c0, hc0⟩ := hgok rsha rfl
          rw [hobj] at hc0
          exact absurd hc0 (by simp)

/-- State for the c2 witness: remote absent, non-empty local file, dirty. -/
def envW2 : Engine := ⟨none, 1, 0, [], [], some [3], none, true⟩

/-- Witness for c2 amended at the concrete state envW2. -/
theorem c2_no_empty_create_witness :
    (syncNow false envW2).2.obj = none ∨
    ∃ buf s, envW2.localFile = some buf ∧ buf ≠ [] ∧
      (syncNow false envW2).2.obj = some (buf, s) :=
  c2_no_empty_create envW2 false rfl

/-- C3: empty-buffer push rule.  For a push attempt where the remote
object is absent and the local buffer is empty, no remote write occurs,
the remote stays absent, and the call returns as a successful no-op
(clearing dirty); and for a push attempt where the remote object is
already present, an empty local buffer proceeds as a normal update that
replaces the remote content. -/
theorem c3_empty_buffer_push_rule (env env2 : Engine) (f : Bool)
    (c : Content) (s : Nat)
    (h1 : env.obj = none) (h2 : env.localFile = some [])
    (h3 : env.script = []) (h4 : env.log = []) (h5 : env.dirty = true)
    (g1 : env2.obj = some (c, s)) (g2 : env2.localFile = some [])
    (g3 : env2.script = []) (g4 : env2.log = []) (g5 : env2.dirty = true) :
    ((syncNow f env).1 = Except.ok () ∧
     (syncNow f env).2.obj = none ∧
     (syncNow f env).2.log.filter (fun ev => isWriteEv ev) = [] ∧
     (syncNow f env).2.dirty = false) ∧
    ((syncNow f env2).1 = Except.ok () ∧
     (syncNow f env2).2.obj = some ([], env2.fresh) ∧
     (syncNow f env2).2.dirty = false ∧
     (syncNow f env2).2.lastKnownSha = some env2.fresh) := by
  constructor
  · rcases env with ⟨obj, fr, hd, script, log, lf, lks, d⟩
    simp only at h1 h2 h3 h4 h5
    subst h1 h2 h3 h4 h5
    simp [syncNow, syncCreateMissing, getRemoteSha, apiGetContent, takeBeh,
      logEv, isWriteEv, err404]
  · rcases env2 with ⟨obj, fr, hd, script, log, lf, lks, d⟩
    simp only at g1 g2 g3 g4 g5
    subst g1 g2 g3 g4 g5
    simp [syncNow, syncUpdateExisting, putFileContents, apiPutContents,
      getRemoteSha, apiGetContent, takeBeh, logEv]

/-- State for the c3 witness, first part: remote absent, empty local. -/
def envW3a : Engine := ⟨none, 1, 0, [], [], some [], none, true⟩

/-- State for the c3 witness, second part: remote present, empty local. -/
def envW3b : Engine := ⟨some ([4], 2), 9, 0, [], [], some [], some 2, true⟩

/-- Witness for c3 at the concrete states envW3a and envW3b, with the
forced variant flushNow(force = true). -/
theorem c3_empty_buffer_push_rule_witness :
    ((syncNow true envW3a).1 = Except.ok () ∧
     (syncNow true envW3a).2.obj = none ∧
     (syncNow true envW3a).2.log.filter (fun ev => isWriteEv ev) = [] ∧
     (syncNow true envW3a).2.dirty = false) ∧
    ((syncNow true envW3b).1 = Except.ok () ∧
     (syncNow true envW3b).2.obj = some ([], envW3b.fresh) ∧
     (syncNow true envW3b).2.dirty = false ∧
     (syncNow true envW3b).2.lastKnownSha = some envW3b.fresh) :=
  c3_empty_buffer_push_rule envW3a envW3b true [4] 2
    rfl rfl rfl rfl rfl rfl rfl rfl rfl rfl

/-- A buffer one byte above the size threshold. -/
def bigBuf : Content := List.replicate (SIZE_WARN_LIMIT + 1) 0

/-- State refuting claim C4: remote present under sha 5, local file one
byte above the threshold, dirty. -/
def envC4 : Engine := ⟨some ([1], 5), 6, 0, [], [], some bigBuf, some 5, true⟩

/-- C4 counterexample: pushing a buffer strictly above the threshold from
envC4 goes through the direct conditional-update call and never touches
the primitive blob, tree, commit path, contradicting the claim that every
above-threshold push uses the primitive path instead. -/
theorem c4_threshold_counterexample :
    SIZE_WARN_LIMIT < bigBuf.length ∧
    (syncNow false envC4).1 = Except.ok () ∧
    (syncNow false envC4).2.log =
      [Event.mk (Call.putContents bigBuf (some 5)) true,
        Event.mk Call.getContent true] ∧
    (syncNow false envC4).2.log.filter (fun ev => isBlobPathCall ev.call) = [] := by
  refine ⟨?_, ?_, ?_, ?_⟩
  · simp [bigBuf]
  · simp [envC4, syncNow, syncUpdateExisting, putFileContents, apiPutContents,
      getRemoteSha, apiGetContent, takeBeh, logEv]
  · simp [envC4, syncNow, syncUpdateExisting, putFileContents, apiPutContents,
      getRemoteSha, apiGetContent, takeBeh, logEv]
  · simp [envC4, syncNow, syncUpdateExisting, putFileContents, apiPutContents,
      getRemoteSha, apiGetContent, takeBeh, logEv, isBlobPathCall]

/-- C4 amended: the size threshold governs only the initialization seed
path — there a buffer at or below the threshold is pushed through the
direct conditional-create call with no primitive blob-path call, and a
buffer above the threshold is pushed through the primitive path with no
direct call; syncNow instead always attempts the direct
conditional-update call first regardless of size, using the primitive
path only after the direct path fails. -/
theorem c4_threshold_routing_amended :
    (∀ (env : Engine) (buf : Content), env.script = [] → env.obj = none →
      env.localFile = some buf → env.log = [] → buf ≠ [] →
      buf.length ≤ SIZE_WARN_LIMIT →
      (initDataSync env).2.log.filter (fun ev => isBlobPathCall ev.call) = [] ∧
      (initDataSync env).2.log.countP (fun ev => isPutAttempt ev) = 1) ∧
    (∀ (env : Engine) (buf : Content), env.script = [] → env.obj = none →
      env.localFile = some buf → env.log = [] →
      SIZE_WARN_LIMIT < buf.length →
      (initDataSync env).2.log.countP (fun ev => isPutAttempt ev) = 0 ∧
      (initDataSync env).2.log.countP (fun ev => isBlobPathCall ev.call) = 6) ∧
    (∀ (env : Engine) (buf c : Content) (s : Nat), env.script = [] →
      env.obj = some (c, s) → env.localFile = some buf → env.log = [] →
      env.dirty = true →
      (syncNow false env).2.log =
        [Event.mk (Call.putContents buf (some s)) true,
          Event.mk Call.getContent true]) := by
  refine ⟨?_, ?_, ?_⟩
  · intro env buf hscript hobj hlf hlog hne hle
    have hpos : 0 < buf.length := List.length_pos.mpr hne
    rcases env with ⟨obj, fr, hd, script, log, lf, lks, d⟩
    simp only at hscript hobj hlf hlog
    subst hscript hobj hlf hlog
    simp [initDataSync, initFetchRemote, fetchRemoteDbBuffer, getRemoteSha,
      apiGetContent, apiPutContents, takeBeh, logEv, initSeedOrSkip, initSeed,
      putFileContents, hpos, hle, isBlobPathCall, isPutAttempt, err404]
  · intro env buf hscript hobj hlf hlog hbig
    have hpos : 0 < buf.length := lt_of_le_of_lt (Nat.zero_le _) hbig
    have hnle : ¬buf.length ≤ SIZE_WARN_LIMIT := not_le.mpr hbig
    rcases env with ⟨obj, fr, hd, script, log, lf, lks, d⟩
    simp only at hscript hobj hlf hlog
    subst hscript hobj hlf hlog
    simp [initDataSync, initFetchRemote, fetchRemoteDbBuffer, getRemoteSha,
      apiGetContent, takeBeh, logEv, initSeedOrSkip, initSeed, commitRawBlob,
      apiCreateBlob, apiGetRef, apiGetCommit, apiCreateTree, apiCreateCommit,
      apiUpdateRef, hpos, hnle, isBlobPathCall, isPutAttempt, err404]
  · intro env buf c s hscript hobj hlf hlog hd
    rcases env with ⟨obj, fr, hdd, script, log, lf, lks, d⟩
    simp only at hscript hobj hlf hlog hd
    subst hscript hobj hlf hlog hd
    simp [syncNow, syncUpdateExisting, putFileContents, apiPutContents,
      getRemoteSha, apiGetContent, takeBeh, logEv]

/-- State for the c4 witness: remote absent, small non-empty local file. -/
def envW4 : Engine := ⟨none, 1, 0, [], [], some [1], none, false⟩

/-- Witness for c4 amended: the small-buffer seed conjunct at envW4. -/
theorem c4_threshold_routing_amended_witness :
    (initDataSync envW4).2.log.filter (fun ev => isBlobPathCall ev.call) = [] ∧
    (initDataSync envW4).2.log.countP (fun ev => isPutAttempt ev) = 1 :=
  c4_threshold_routing_amended.1 envW4 [1] rfl rfl rfl rfl (by decide) (by decide)

/-- C5: conflict retry.  For every push where the remote object exists,
the first conditional update fails with the 422 sha-missing-or-stale class
of failure, the re-fetch returns a tag, and the retried conditional update
succeeds: exactly two write attempts are issued in total, the push ends in
success, lastKnownSha is updated to the returned tag, and dirty is false
afterwards. -/
theorem c5_conflict_retry (env : Engine) (c buf : Content) (s : Nat)
    (hobj : env.obj = some (c, s)) (hlf : env.localFile = some buf)
    (hd : env.dirty = true) (hlog : env.log = [])
    (hscript : env.script = [Beh.honest, Beh.fault (some 422) true]) :
    (syncNow false env).1 = Except.ok () ∧
    ((syncNow false env).2.log.filter (fun ev => isPutAttempt ev)).length = 2 ∧
    (syncNow false env).2.dirty = false ∧
    (syncNow false env).2.lastKnownSha = some env.fresh ∧
    (syncNow false env).2.obj = some (buf, env.fresh) := by
  rcases env with ⟨obj, fr, hdd, script, log, lf, lks, d⟩
  simp only at hobj hlf hd hlog hscript
  subst hobj hlf hd hlog hscript
  simp [syncNow, syncUpdateExisting, putFileContents, apiPutContents,
    getRemoteSha, apiGetContent, takeBeh, logEv, isPutAttempt]

/-- State for the c5 witness: remote holds byte 9 under sha 4, local holds
bytes 1 2, dirty, with the first conditional write scripted to fail with
the 422 sha class. -/
def envW5 : Engine :=
  ⟨some ([9], 4), 7, 0, [Beh.honest, Beh.fault (some 422) true], [],
    some [1, 2], some 4, true⟩

/-- Witness for c5 at the concrete state envW5. -/
theorem c5_conflict_retry_witness :
    (syncNow false envW5).1 = Except.ok () ∧
    ((syncNow false envW5).2.log.filter (fun ev => isPutAttempt ev)).length = 2 ∧
    (syncNow false envW5).2.dirty = false ∧
    (syncNow false envW5).2.lastKnownSha = some envW5.fresh ∧
    (syncNow false envW5).2.obj = some ([1, 2], envW5.fresh) :=
  c5_conflict_retry envW5 [9] [1, 2] 4 rfl rfl rfl rfl rfl

/-- State refuting claim C6: remote absent, local file empty, dirty. -/
def envC6 : Engine := ⟨none, 1, 0, [], [], some [], none, true⟩

/-- C6 counterexample: from envC6 a flush clears dirty from true to false
while performing no remote write at all (the refused blank-create no-op),
contradicting the claim that dirty transitions to false only on a
confirmed successful push. -/
theorem c6_dirty_counterexample :
    envC6.dirty = true ∧
    (syncNow false envC6).1 = Except.ok () ∧
    (syncNow false envC6).2.dirty = false ∧
    (syncNow false envC6).2.log.filter (fun ev => replacesObj ev) = [] ∧
    (syncNow false envC6).2.log.filter (fun ev => isWriteEv ev) = [] :=
  ⟨rfl, rfl, rfl, rfl, rfl⟩

/-- Outcome split of the blob-commit fallback: either dirty survives, or a
successful replacing write was logged. -/
theorem syncFallbackUpdate_dirty_outcomes (buf : Content) (e : Engine)
    (hd : e.dirty = true) :
    (syncFallbackUpdate buf e).2.dirty = true ∨
    (∃ ev ∈ (syncFallbackUpdate buf e).2.log, replacesObj ev = true) := by
  unfold syncFallbackUpdate
  have hcb := commitRawBlob_state buf e
  rcases hcc : commitRawBlob buf e with ⟨rc, ec⟩
  rw [hcc] at hcb
  try simp only [hcc]
  obtain ⟨hclf, hclks, hcd, hclog, hcok, hcerr⟩ := hcb
  dsimp at hclf hclks hcd hcok hcerr
  rcases rc with err | vv
  · dsimp only
    exact Or.inl (hcd.trans hd)
  · dsimp only
    obtain ⟨_, ev, hev, hevr⟩ := hcok vv rfl
    have hg2 := getRemoteSha_state ec
    rcases hgr2 : getRemoteSha ec with ⟨rg2, eg2⟩
    rw [hgr2] at hg2
    try simp only [hgr2]
    obtain ⟨_, _, _, hg2d, ⟨bg2, hg2log⟩, _⟩ := hg2
    dsimp at hg2d hg2log
    rcases rg2 with err2 | s2
    · dsimp only
      exact Or.inl (hg2d.trans (hcd.trans hd))
    · dsimp only
      refine Or.inr ⟨ev, ?_, hevr⟩
      rw [hg2log]
      exact List.mem_cons_of_mem _ hev

/-- Outcome split of a dirty flush: either dirty survives, or a successful
replacing write was logged, or the run was the refused blank-create no-op
(empty local buffer, no write call issued at all). -/
theorem syncNow_dirty_outcomes (env : Engine) (f : Bool)
    (hd : env.dirty = true) (hlog : env.log = []) :
    (syncNow f env).2.dirty = true ∨
    (∃ ev ∈ (syncNow f env).2.log, replacesObj ev = true) ∨
    (env.localFile = some [] ∧
      (syncNow f env).2.log.countP (fun ev => isWriteEv ev) = 0) := by
  unfold syncNow
  rw [if_neg (by simp [hd])]
  rcases hl : env.localFile with _ | buf
  · dsimp only
    exact Or.inl hd
  · dsimp only
    have hg := getRemoteSha_state env
    rcases hgr : getRemoteSha env with ⟨rg, eg⟩
    rw [hgr] at hg
    try simp only [hgr]
    obtain ⟨hgobj, hglf, hglks, hgd, ⟨bg, hglog⟩, hgok⟩ := hg
    dsimp at hgobj hglf hglks hgd hglog hgok
    rcases rg with err | s2
    · dsimp only
      exact Or.inl (hgd.trans hd)
    · rcases s2 with _ | rsha
      · -- remote observed absent: create branch
        dsimp only
        unfold syncCreateMissing
        by_cases hlen : buf.length = 0
        · rw [if_pos hlen]
          dsimp only
          refine Or.inr (Or.inr ⟨by rw [List.length_eq_zero] at hlen; rw [hlen], ?_⟩)
          rw [hglog, hlog]
          simp [isWriteEv]
        · rw [if_neg hlen]
          have hp := putFileContents_state buf none eg
          rcases hpc : putFileContents buf none eg with ⟨rp, ep⟩
          rw [hpc] at hp
          try simp only [hpc]
          obtain ⟨hplf, hplks, hpd, hplog, hpok, hperr⟩ := hp
          dsimp at hplf hplks hpd hpok hperr
          rcases rp with err | v
          · dsimp only
            have hcb := commitRawBlob_state buf ep
            rcases hcc : commitRawBlob buf ep with ⟨rc, ec⟩
            rw [hcc] at hcb
            try simp only [hcc]
            obtain ⟨hclf, hclks, hcd, hclog, hcok, hcerr⟩ := hcb
            dsimp at hclf hclks hcd hcok hcerr
            rcases rc with err2 | vv
            · dsimp only
              exact Or.inl (hcd.trans (hpd.trans (hgd.trans hd)))
            · dsimp only
              obtain ⟨_, ev, hev, hevr⟩ := hcok vv rfl
              have hg2 := getRemoteSha_state ec
              rcases hgr2 : getRemoteSha ec with ⟨rg2, eg2⟩
              rw [hgr2] at hg2
              try simp only [hgr2]
              obtain ⟨_, _, _, hg2d, ⟨bg2, hg2log⟩, _⟩ := hg2
              dsimp at hg2d hg2log
              rcases rg2 with err3 | s3
              · dsimp only
                exact Or.inl (hg2d.trans (hcd.trans (hpd.trans (hgd.trans hd))))
              · dsimp only
                refine Or.inr (Or.inl ⟨ev, ?_, hevr⟩)
                rw [hg2log]
                exact List.mem_cons_of_mem _ hev
          · dsimp only
            obtain ⟨_, ev, hev, hevr⟩ := hpok v rfl
            exact Or.inr (Or.inl ⟨ev, hev, hevr⟩)
      · -- remote observed present: update branch
        dsimp only
        unfold syncUpdateExisting
        have hp := putFileContents_state buf (some rsha) eg
        rcases hpc : putFileContents buf (some rsha) eg with ⟨rp, ep⟩
        rw [hpc] at hp
        try simp only [hpc]
        obtain ⟨hplf, hplks, hpd, hplog, hpok, hperr⟩ := hp
        dsimp at hplf hplks hpd hpok hperr
        rcases rp with err | v
        · dsimp only
          by_cases hc : err.status = some 422 ∧ err.shaMsg = true
          · rw [if_pos hc]
            have hg2 := getRemoteSha_state ep
            rcases hgr2 : getRemoteSha ep with ⟨rg2, eg2⟩
            rw [hgr2] at hg2
            try simp only [hgr2]
            obtain ⟨hg2obj, hg2lf, hg2lks, hg2d, ⟨bg2, hg2log⟩, _⟩ := hg2
            dsimp at hg2obj hg2lf hg2lks hg2d hg2log
            rcases rg2 with err2 | s3
            · dsimp only
              exact Or.inl (hg2d.trans (hpd.trans (hgd.trans hd)))
            · rcases s3 with _ | refreshed
              · dsimp only
                rcases syncFallbackUpdate_dirty_outcomes buf eg2
                    (hg2d.trans (hpd.trans (hgd.trans hd))) with h1 | h1
                · exact Or.inl h1
                · exact Or.inr (Or.inl h1)
              · dsimp only
                have hp2 := putFileContents_state buf (some refreshed) eg2
                rcases hpc2 : putFileContents buf (some refreshed) eg2 with ⟨rp2, ep2⟩
                rw [hpc2] at hp2
                try simp only [hpc2]
                obtain ⟨hp2lf, hp2lks, hp2d, hp2log, hp2ok, hp2err⟩ := hp2
                dsimp at hp2lf hp2lks hp2d hp2ok hp2err
                rcases rp2 with err2 | v2
                · dsimp only
                  exact Or.inl (hp2d.trans (hg2d.trans (hpd.trans (hgd.trans hd))))
                · dsimp only
                  obtain ⟨_, ev, hev, hevr⟩ := hp2ok v2 rfl
                  exact Or.inr (Or.inl ⟨ev, hev, hevr⟩)
          · rw [if_neg hc]
            rcases syncFallbackUpdate_dirty_outcomes buf ep
                (hpd.trans (hgd.trans hd)) with h1 | h1
            · exact Or.inl h1
            · exact Or.inr (Or.inl h1)
        · dsimp only
          obtain ⟨_, ev, hev, hevr⟩ := hpok v rfl
          exact Or.inr (Or.inl ⟨ev, hev, hevr⟩)

/-- C6 amended: across every flush, dirty transitions from true to false
only when a successful push write (conditional write or ref update) has
been confirmed during the flush, or when the flush was the refused
blank-create no-op — the local buffer was empty, the remote was observed
absent, and no write call was issued at all; markDataDirty is the only
operation setting dirty. -/
theorem c6_dirty_flag_amended (env : Engine) (f : Bool)
    (hd : env.dirty = true) (hlog : env.log = [])
    (hclear : (syncNow f env).2.dirty = false) :
    (∃ ev ∈ (syncNow f env).2.log, replacesObj ev = true) ∨
    (env.localFile = some [] ∧
      (syncNow f env).2.log.countP (fun ev => isWriteEv ev) = 0) := by
  rcases syncNow_dirty_outcomes env f hd hlog with h | h | h
  · rw [hclear] at h
    exact absurd h (by simp)
  · exact Or.inl h
  · exact Or.inr h

/-- State for the c6 witness: remote present, non-empty local, dirty. -/
def envW6 : Engine := ⟨some ([2], 4), 5, 0, [], [], some [9], some 4, true⟩

/-- Witness for c6 amended at the concrete state envW6, where the flush
succeeds through a conditional write. -/
theorem c6_dirty_flag_amended_witness :
    (∃ ev ∈ (syncNow false envW6).2.log, replacesObj ev = true) ∨
    (envW6.localFile = some [] ∧
      (syncNow false envW6).2.log.countP (fun ev => isWriteEv ev) = 0) :=
  c6_dirty_flag_amended envW6 false rfl rfl rfl

/-- State refuting claim C7: the remote object exists, but the startup
read fails with an error that carries no HTTP status (as the locally
constructed decoding errors of the source do). -/
def envC7 : Engine :=
  ⟨some ([1], 5), 6, 0, [Beh.fault none false], [], some [], none, false⟩

/-- C7 counterexample: from envC7 the remote read fails with a non-404,
status-less error, yet initDataSync absorbs it and returns success (the
log shows the single failed read), contradicting the claim that every
failure other than not-found propagates out of initialization. -/
theorem c7_statusless_error_absorbed :
    envC7.obj = some ([1], 5) ∧
    (initDataSync envC7).1 = Except.ok () ∧
    (initDataSync envC7).2.log = [Event.mk Call.getContent false] :=
  ⟨rfl, rfl, rfl⟩

/-- C7 amended: a not-found result from the store is not an error, and a
startup remote-read failure carrying a status other than 404 propagates
out of initDataSync; however a failure carrying no status at all is
silently absorbed and initialization continues as if the remote were
absent. -/
theorem c7_remote_read_errors_amended :
    (∀ (env : Engine) (st : Nat), st ≠ 404 →
      env.script = [Beh.fault (some st) false] →
      (initDataSync env).1 = Except.error ⟨some st, false, false⟩) ∧
    (∀ env : Engine, env.script = [Beh.fault none false] →
      env.localFile = some [] →
      (initDataSync env).1 = Except.ok ()) ∧
    (∀ env : Engine, env.obj = none → env.script = [] →
      env.localFile = some [] →
      (initDataSync env).1 = Except.ok ()) := by
  refine ⟨?_, ?_, ?_⟩
  · intro env st hst hscript
    rcases env with ⟨obj, fr, hd, script, log, lf, lks, d⟩
    simp only at hscript
    subst hscript
    simp [initDataSync, initFetchRemote, fetchRemoteDbBuffer, getRemoteSha,
      apiGetContent, takeBeh, logEv, hst]
  · intro env hscript hlf
    rcases env with ⟨obj, fr, hd, script, log, lf, lks, d⟩
    simp only at hscript hlf
    subst hscript hlf
    simp [initDataSync, initFetchRemote, fetchRemoteDbBuffer, getRemoteSha,
      apiGetContent, takeBeh, logEv, initSeedOrSkip]
  · intro env hobj hscript hlf
    rcases env with ⟨obj, fr, hd, script, log, lf, lks, d⟩
    simp only at hobj hscript hlf
    subst hobj hscript hlf
    simp [initDataSync, initFetchRemote, fetchRemoteDbBuffer, getRemoteSha,
      apiGetContent, takeBeh, logEv, initSeedOrSkip, err404]

/-- State for the c7 witness: remote exists, read scripted to fail 500. -/
def envW7 : Engine :=
  ⟨some ([1], 5), 6, 0, [Beh.fault (some 500) false], [], some [], none, false⟩

/-- Witness for c7 amended: a 500 failure of the startup read propagates. -/
theorem c7_remote_read_errors_amended_witness :
    (initDataSync envW7).1 = Except.error ⟨some 500, false, false⟩ :=
  c7_remote_read_errors_amended.1 envW7 500 (by decide) rfl

/-- C8 counterexample: after the trace mark, fire, mark the push launched
by the timer is still in flight (inFlight = 1, state Flushing) and yet the
third markDataDirty has armed a fresh debounce timer, contradicting the
claim that no new timer is started while a push is executing: the source
clears the timer handle when the timeout callback starts the push, not
when the push completes. -/
theorem c8_timer_during_flush_counterexample :
    (runSched schedInit [SEv.mark, SEv.fire, SEv.mark]).inFlight = 1 ∧
    (runSched schedInit [SEv.mark, SEv.fire, SEv.mark]).timer = true :=
  ⟨rfl, rfl⟩

/-- Marking while a timer is pending is a fixpoint of the scheduler. -/
theorem runSched_marks_fix (k : Nat) :
    runSched ⟨true, true, 0, 0⟩ (List.replicate k SEv.mark) = ⟨true, true, 0, 0⟩ := by
  induction k with
  | zero => rfl
  | succ n ih =>
    rw [List.replicate_succ]
    simpa [runSched, schedStep] using ih

/-- C8 amended: a burst of N + 1 markDirty calls inside the debounce
window produces exactly one launched push attempt when the timer fires,
and while the timer handle is pending a further markDirty neither arms a
new timer nor launches anything (coalescing); however the handle is
cleared the moment the timer fires, so a markDirty arriving while the
launched push is still executing does arm a new timer. -/
theorem c8_debounce_amended :
    (∀ n : Nat,
      runSched schedInit (List.replicate (n + 1) SEv.mark ++ [SEv.fire]) =
        ⟨true, false, 1, 1⟩) ∧
    (∀ s : Sched, s.timer = true →
      (schedStep s SEv.mark).timer = s.timer ∧
      (schedStep s SEv.mark).launched = s.launched) ∧
    (runSched schedInit [SEv.mark, SEv.fire, SEv.mark]).timer = true ∧
    (runSched schedInit [SEv.mark, SEv.fire, SEv.mark]).inFlight = 1 := by
  refine ⟨?_, ?_, rfl, rfl⟩
  · intro n
    rw [runSched, List.foldl_append, List.replicate_succ]
    have h1 : List.foldl schedStep schedInit (SEv.mark :: List.replicate n SEv.mark) =
        ⟨true, true, 0, 0⟩ := by
      rw [List.foldl_cons]
      exact runSched_marks_fix n
    rw [h1]
    rfl
  · intro s hs
    simp [schedStep, hs]

/-- Witness for c8 amended at the pending-timer state. -/
theorem c8_debounce_amended_witness :
    (schedStep ⟨true, true, 0, 0⟩ SEv.mark).timer = (⟨true, true, 0, 0⟩ : Sched).timer ∧
    (schedStep ⟨true, true, 0, 0⟩ SEv.mark).launched =
      (⟨true, true, 0, 0⟩ : Sched).launched :=
  c8_debounce_amended.2.1 ⟨true, true, 0, 0⟩ rfl

/-- C9 counterexample: in the interleaving mark, fire, tick the periodic
tick fires while the debounce-launched push is still in flight and starts
a second concurrent push, reaching two pushes in flight and contradicting
the claim that at most one push is in flight in every interleaving. -/
theorem c9_two_in_flight_counterexample :
    (runSched schedInit [SEv.mark, SEv.fire, SEv.tick]).inFlight = 2 := rfl

/-- C9 amended: markDataDirty never launches a push itself — pushes are
launched one per event and only by the debounce timer firing, the
periodic tick, a direct flushNow/syncNow call, or the shutdown handler —
but no busy gate ties launches to completions, so at most one push in
flight is not guaranteed: a periodic tick, and likewise the shutdown
flush, arriving while the debounce-launched push is still in flight
starts a second concurrent push. -/
theorem c9_single_flight_amended :
    (∀ (s : Sched) (e : SEv), (schedStep s e).inFlight ≤ s.inFlight + 1) ∧
    (∀ (s : Sched) (e : SEv), (schedStep s e).inFlight = s.inFlight + 1 →
      e = SEv.fire ∨ e = SEv.tick ∨ e = SEv.shutdown ∨ ∃ b, e = SEv.flush b) ∧
    (∀ s : Sched, (schedStep s SEv.mark).inFlight = s.inFlight) ∧
    (runSched schedInit [SEv.mark, SEv.fire, SEv.tick]).inFlight = 2 ∧
    (runSched schedInit [SEv.mark, SEv.fire, SEv.shutdown]).inFlight = 2 := by
  refine ⟨?_, ?_, ?_, rfl, rfl⟩
  · intro s e
    cases e with
    | mark =>
      simp only [schedStep]
      split <;> simp
    | fire =>
      simp only [schedStep]
      split
      · split <;> simp
      · simp
    | tick =>
      simp only [schedStep]
      split <;> simp
    | flush force =>
      simp only [schedStep]
      split <;> simp
    | shutdown =>
      simp only [schedStep]
      split <;> simp
    | finish =>
      simp only [schedStep]
      split
      · simp
      · dsimp only
        omega
  · intro s e h
    cases e with
    | mark =>
      exfalso
      revert h
      simp only [schedStep]
      split <;> simp
    | fire => exact Or.inl rfl
    | tick => exact Or.inr (Or.inl rfl)
    | flush force => exact Or.inr (Or.inr (Or.inr ⟨force, rfl⟩))
    | shutdown => exact Or.inr (Or.inr (Or.inl rfl))
    | finish =>
      exfalso
      revert h
      simp only [schedStep]
      split
      · omega
      · dsimp only
        omega
  · intro s
    simp only [schedStep]
    split <;> rfl

/-- Witness for c9 amended: the shutdown-handler launch at a dirty state
with no timer pending. -/
theorem c9_single_flight_amended_witness :
    SEv.shutdown = SEv.fire ∨ SEv.shutdown = SEv.tick ∨
      SEv.shutdown = SEv.shutdown ∨ ∃ b, SEv.shutdown = SEv.flush b :=
  c9_single_flight_amended.2.1 ⟨true, false, 0, 0⟩ SEv.shutdown rfl

/-- C10: the conditional-write helper putFileContents silently retries
once — a call without a supplied version sha that the store rejects with
the 422 sha-was-not-supplied error re-fetches the sha and, when one
exists, reissues the write exactly once with it, so the call succeeds with
two store writes in total (the create and seed paths therefore get this
one retry); and in general a single putFileContents call issues at most
two conditional-write attempts. -/
theorem c10_put_retry_and_bound (env : Engine) (c buf : Content) (s : Nat)
    (hobj : env.obj = some (c, s)) (hscript : env.script = [])
    (hlog : env.log = []) :
    ((putFileContents buf none env).1 = Except.ok env.fresh ∧
     (putFileContents buf none env).2.log =
       [Event.mk (Call.putContents buf (some s)) true,
         Event.mk Call.getContent true,
         Event.mk (Call.putContents buf none) false] ∧
     (putFileContents buf none env).2.obj = some (buf, env.fresh)) ∧
    (∀ (env2 : Engine) (c2 : Content) (sh : Option Nat),
      (putFileContents c2 sh env2).2.log.countP (fun ev => isPutAttempt ev) ≤
        env2.log.countP (fun ev => isPutAttempt ev) + 2) := by
  constructor
  · rcases env with ⟨obj, fr, hd, script, log, lf, lks, d⟩
    simp only at hobj hscript hlog
    subst hobj hscript hlog
    simp [putFileContents, apiPutContents, getRemoteSha, apiGetContent,
      takeBeh, logEv, err422sha]
  · intro env2 c2 sh
    obtain ⟨_, _, _, ⟨l, hlg, hcount, _⟩, _, _⟩ := putFileContents_state c2 sh env2
    rw [hlg, List.countP_append]
    omega

/-- State for the c10 witness: remote holds byte 9 under sha 4. -/
def envW10 : Engine := ⟨some ([9], 4), 7, 0, [], [], none, none, false⟩

/-- Witness for c10 at the concrete state envW10. -/
theorem c10_put_retry_and_bound_witness :
    ((putFileContents [1, 2] none envW10).1 = Except.ok envW10.fresh ∧
     (putFileContents [1, 2] none envW10).2.log =
       [Event.mk (Call.putContents [1, 2] (some 4)) true,
         Event.mk Call.getContent true,
         Event.mk (Call.putContents [1, 2] none) false] ∧
     (putFileContents [1, 2] none envW10).2.obj = some ([1, 2], envW10.fresh)) ∧
    (∀ (env2 : Engine) (c2 : Content) (sh : Option Nat),
      (putFileContents c2 sh env2).2.log.countP (fun ev => isPutAttempt ev) ≤
        env2.log.countP (fun ev => isPutAttempt ev) + 2) :=
  c10_put_retry_and_bound envW10 [9] [1, 2] 4 rfl rfl rfl

end GitDataSync
